import Mathlib

/-!
# Verification of the W10BFinalProject air-hockey gameplay core

A shallow embedding of the gameplay logic of `src/projects/W10BFinalProject`:

* `BounceBehaviour::OnEnteredTrigger` (BounceBehaviour.cpp), the collision
  reflection component attached to the puck: glm vector and quaternion
  arithmetic is modelled over `ℝ` (floats idealised as reals).
* the match-state loop of `main.cpp` (goal detection, `scoreCheck`,
  `scoreCheckReset`, `checkIsReseting`, `lightReset`): positions, colors and
  scores are modelled exactly over `ℚ` and `ℤ` (float literals idealised as
  the rationals they denote), lights as a `List Light`, and the per-frame
  ordering of the game loop as an explicit step function.  External physics
  motion of the puck between frames is modelled by injecting an arbitrary
  observed puck position into each frame step.
-/

namespace AirHockey

/-! ## glm vector and quaternion model (over ℝ) -/

/-- `glm::vec3`, components idealised as reals. -/
@[ext]
structure Vec3 where
  x : ℝ
  y : ℝ
  z : ℝ

/-- The zero vector `glm::vec3(0.0f)`. -/
def zeroV : Vec3 := ⟨0, 0, 0⟩

/-- Component-wise addition. -/
def addV (a b : Vec3) : Vec3 := ⟨a.x + b.x, a.y + b.y, a.z + b.z⟩

/-- Component-wise subtraction. -/
def subV (a b : Vec3) : Vec3 := ⟨a.x - b.x, a.y - b.y, a.z - b.z⟩

/-- Scalar multiplication `v * s`. -/
def smulV (s : ℝ) (a : Vec3) : Vec3 := ⟨s * a.x, s * a.y, s * a.z⟩

/-- `glm::dot`. -/
def dotV (a b : Vec3) : ℝ := a.x * b.x + a.y * b.y + a.z * b.z

/-- `glm::cross`. -/
def crossV (a b : Vec3) : Vec3 :=
  ⟨a.y * b.z - a.z * b.y, a.z * b.x - a.x * b.z, a.x * b.y - a.y * b.x⟩

/-- `glm::length`: the euclidean magnitude `sqrt(dot(v, v))`. -/
noncomputable def lengthV (a : Vec3) : ℝ := Real.sqrt (dotV a a)

/-- `glm::normalize`: `v * inversesqrt(dot(v, v))`, i.e. `v / |v|`. -/
noncomputable def normalizeV (a : Vec3) : Vec3 := smulV (1 / lengthV a) a

/-- `glm::reflect(I, N) = I - N * dot(N, I) * 2`. -/
def reflectV (I N : Vec3) : Vec3 := subV I (smulV (2 * dotV N I) N)

/-- Zero the out-of-plane component (`v.z = 0.0f`), constraining to the
play plane. -/
def flattenZ (a : Vec3) : Vec3 := ⟨a.x, a.y, 0⟩

/-- `glm::quat` (w, x, y, z), components idealised as reals. -/
structure Quat where
  w : ℝ
  x : ℝ
  y : ℝ
  z : ℝ

/-- `glm::dot(q, q)` for a quaternion. -/
def quatDot (q : Quat) : ℝ := q.w * q.w + q.x * q.x + q.y * q.y + q.z * q.z

/-- `glm::inverse(q) = conjugate(q) / dot(q, q)`. -/
noncomputable def quatInv (q : Quat) : Quat :=
  ⟨q.w / quatDot q, -q.x / quatDot q, -q.y / quatDot q, -q.z / quatDot q⟩

/-- `glm` rotation of a vector by a quaternion (`operator*(qua, vec3)`):
`v + ((cross(qv, v) * q.w) + cross(qv, cross(qv, v))) * 2` where `qv` is the
vector part of `q`. -/
def quatRotV (q : Quat) (v : Vec3) : Vec3 :=
  let qv : Vec3 := ⟨q.x, q.y, q.z⟩
  let uv := crossV qv v
  let uuv := crossV qv uv
  addV v (smulV 2 (addV (smulV q.w uv) uuv))

/-- `glm::vec4(v, 1.0) * q`, which glm defines as `inverse(q) * vec4(v, 1.0)`,
whose xyz part is `inverse(q)` rotating `v`. -/
noncomputable def vec4MulQuat (v : Vec3) (q : Quat) : Vec3 := quatRotV (quatInv q) v

/-! ## BounceBehaviour (BounceBehaviour.cpp) -/

/-- The puck's rigid body, reduced to the one physical quantity the bounce
logic reads and writes: its linear velocity.  `resetVelocity` zeroes it and
`ApplyImpulse` adds the (mass-normalised) impulse to it. -/
structure RigidBody where
  velocity : Vec3

/-- The fields of `BounceBehaviour` together with the name of its owning
game object (read through `gameObj->Name`) — `rigidOBJ` is the possibly-null
pointer to the puck's body. -/
structure BounceState where
  gameObjName : String
  rigidOBJ : Option RigidBody
  isInCollision : Bool
  reflectionVelocity : Vec3
  repelVelocity : Vec3

/-- `BounceBehaviour::Awake`: cache the owning object, and resolve the rigid
body only when the owner is literally named "Puck". -/
def awake (name : String) (body : Option RigidBody) (s : BounceState) : BounceState :=
  { s with gameObjName := name,
           rigidOBJ := if name = "Puck" then body else s.rigidOBJ }

/-- The inward edge normal computed inside `OnEnteredTrigger` from the
trigger's rotation: rotate the forward vector `(0, 1, 0)` by
`vec4(forwVec, 1.0) * rot`, negate x ("turn inside"), and flatten. -/
noncomputable def edgeNormalRaw (rot : Quat) : Vec3 :=
  let edgeVec := vec4MulQuat ⟨0, 1, 0⟩ rot
  flattenZ ⟨-edgeVec.x, edgeVec.y, edgeVec.z⟩

/-- `BounceBehaviour::OnEnteredTrigger`, parametrised by the trigger's
world rotation.  When the guard `rigidOBJ && gameObj->Name == "Puck"` holds:
flatten the body's velocity, compute the flattened inward edge normal, take
the speed, normalize both vectors, reflect, re-flatten, scale by
`speed * 0.5f`, reset the body's velocity and apply the result as an
impulse, and cache `reflectionVelocity` and `repelVelocity`.  Otherwise the
call leaves everything untouched. -/
noncomputable def onEnteredTrigger (s : BounceState) (rot : Quat) : BounceState :=
  match s.rigidOBJ with
  | none => s
  | some body =>
    if s.gameObjName = "Puck" then
      let rigiVelo := flattenZ body.velocity
      let edgeVec := edgeNormalRaw rot
      let speed := lengthV rigiVelo
      let rigiHat := normalizeV rigiVelo
      let edgeHat := normalizeV edgeVec
      let refVelo := smulV (speed * (1 / 2)) (flattenZ (reflectV rigiHat edgeHat))
      { s with isInCollision := true,
               rigidOBJ := some { velocity := addV zeroV refVelo },
               reflectionVelocity := refVelo,
               repelVelocity := smulV 10 (normalizeV refVelo) }
    else s

/-! ## Match state loop (main.cpp) -/

/-- `glm::vec3` restricted to the exact rational values the score machinery
manipulates (positions, colors); float literals idealised as the rationals
they denote. -/
structure Vec3Q where
  x : ℚ
  y : ℚ
  z : ℚ
deriving DecidableEq

/-- `glm::vec3 black = glm::vec3(0.0f);` (main.cpp:237). -/
def black : Vec3Q := ⟨0, 0, 0⟩

/-- `glm::vec3 yellow = glm::vec3(1.0f, 1.0f, 0.0f);` (main.cpp:238). -/
def yellow : Vec3Q := ⟨1, 1, 0⟩

/-- One entry of `scene->Lights`: the fields the game code sets. -/
structure Light where
  position : Vec3Q
  color : Vec3Q
  range : ℚ
deriving DecidableEq

/-- Write the color of `Lights[n]` (in-bounds index); out-of-range leaves the
list unchanged (the C++ subscript would be out of bounds, which the safety
claim shows never happens). -/
def setLightColorN : List Light → Nat → Vec3Q → List Light
  | [], _, _ => []
  | l :: ls, 0, c => { l with color := c } :: ls
  | l :: ls, n + 1, c => l :: setLightColorN ls n c

/-- `scene->Lights[i].Color = c` with an `int` index as in the C++. -/
def setLightColor (ls : List Light) (i : Int) (c : Vec3Q) : List Light :=
  if 0 ≤ i then setLightColorN ls i.toNat c else ls

/-- Write the position of `Lights[n]`. -/
def setLightPosN : List Light → Nat → Vec3Q → List Light
  | [], _, _ => []
  | l :: ls, 0, p => { l with position := p } :: ls
  | l :: ls, n + 1, p => l :: setLightPosN ls n p

/-- The global game state touched by the scoring machinery: the counters
`lScore`/`rScore` (C++ `int`s), the pending-reset flag `resetCheck`, the
`scene->Lights` array, and the puck's world position and linear velocity. -/
structure GameState where
  lScore : Int
  rScore : Int
  resetCheck : Bool
  lights : List Light
  puckPos : Vec3Q
  puckVel : Vec3Q
deriving DecidableEq

/-- `scoreCheck(bool isLeft)` (main.cpp:1457): increment the matching counter
and light the pip `Lights[lScore]` resp. `Lights[rScore + 4]` yellow.
The second component logs the light index written, for the bounds claim. -/
def scoreCheck (isLeft : Bool) (s : GameState) : GameState × List Int :=
  if isLeft then
    let l := s.lScore + 1
    ({ s with lScore := l, lights := setLightColor s.lights l yellow }, [l])
  else
    let r := s.rScore + 1
    ({ s with rScore := r, lights := setLightColor s.lights (r + 4) yellow }, [r + 4])

/-- `scoreCheckReset()` (main.cpp:1469): if either counter has reached 4,
zero both counters and raise the pending-reset flag (two sequential `if`s). -/
def scoreCheckReset (s : GameState) : GameState :=
  let s1 := if 4 ≤ s.lScore then
      { s with lScore := 0, rScore := 0, resetCheck := true } else s
  if 4 ≤ s1.rScore then
    { s1 with lScore := 0, rScore := 0, resetCheck := true } else s1

/-- `lightReset()` (main.cpp:1499): `for (int i = 1; i < 9; i++)` set
`Lights[i].Color = black`. -/
def lightReset (ls : List Light) : List Light :=
  (List.range' 1 8).foldl (fun acc i => setLightColor acc (Int.ofNat i) black) ls

/-- `checkIsReseting()` (main.cpp:1488): when the pending-reset flag is
raised, teleport the puck to the center `(0, 0, 4)`, clear all indicator
lights via `lightReset`, lower the flag (and block in `Sleep(1000)`, which
has no game-state effect).  The second component logs the light indices
written by `lightReset`. -/
def checkIsReseting (s : GameState) : GameState × List Int :=
  if s.resetCheck = true then
    ({ s with puckPos := ⟨0, 0, 4⟩, lights := lightReset s.lights, resetCheck := false },
     (List.range' 1 8).map Int.ofNat)
  else (s, [])

/-- The goal-detection block of the frame loop (main.cpp:1414): read the
puck position once; if its x is `≤ -17.6f` the right player scores and the
puck teleports to `(9.5, 0, -1)` with its velocity reset; if the same cached
x is `≥ 17.6f` the left player scores and the puck teleports to
`(-9.5, 0, -1)` with its velocity reset. -/
def goalDetect (s : GameState) : GameState × List Int :=
  let px := s.puckPos.x
  let a :=
    if px ≤ -(88 / 5 : ℚ) then
      let r := scoreCheck false s
      ({ r.1 with puckPos := ⟨19 / 2, 0, -1⟩, puckVel := ⟨0, 0, 0⟩ }, r.2)
    else (s, [])
  if (88 / 5 : ℚ) ≤ px then
    let r := scoreCheck true a.1
    ({ r.1 with puckPos := ⟨-(19 / 2), 0, -1⟩, puckVel := ⟨0, 0, 0⟩ }, a.2 ++ r.2)
  else a

/-- One iteration of the game loop (main.cpp:1131), restricted to the score
machinery, in source order: `checkIsReseting()`, then `scoreCheckReset()`,
then (input handling and external physics, modelled by an arbitrary observed
puck position `physPos`), then goal detection, then pinning
`Lights[9].Position` to the puck position raised by 3.  The second component
logs all light-color write indices of the frame. -/
def frameStep (physPos : Vec3Q) (s : GameState) : GameState × List Int :=
  let c := checkIsReseting s
  let s2 := scoreCheckReset c.1
  let s3 := { s2 with puckPos := physPos }
  let g := goalDetect s3
  let s5 := { g.1 with
    lights := setLightPosN g.1.lights 9 ⟨g.1.puckPos.x, g.1.puckPos.y, g.1.puckPos.z + 3⟩ }
  (s5, c.2 ++ g.2)

/-- Run a sequence of frames, one observed puck position per frame. -/
def runFrames (s : GameState) (ps : List Vec3Q) : GameState :=
  ps.foldl (fun s p => (frameStep p s).1) s

/-- A frame whose observed puck position makes the left player score. -/
def isLeftGoal (p : Vec3Q) : Bool := decide ((88 / 5 : ℚ) ≤ p.x)

/-- A frame whose observed puck position makes the right player score. -/
def isRightGoal (p : Vec3Q) : Bool := decide (p.x ≤ -(88 / 5 : ℚ))

/-- Number of left goals in a sequence of frames. -/
def countLeft (ps : List Vec3Q) : Nat := (ps.filter isLeftGoal).length

/-- Number of right goals in a sequence of frames. -/
def countRight (ps : List Vec3Q) : Nat := (ps.filter isRightGoal).length

/-- `scene->Lights` exactly as `CreateScene` initialises it
(main.cpp:409–451): slot 0 the main white light, slots 1–4 the left pips,
slots 5–8 the right pips (all black), slot 9 the puck-following light. -/
def initLights : List Light :=
  [ { position := ⟨0, 0, 10⟩, color := ⟨1, 1, 1⟩, range := 300 },
    { position := ⟨-14.84, 13.34, -6.56⟩, color := black, range := 2 },
    { position := ⟨-14.72, -12.98, -6.62⟩, color := black, range := 2 },
    { position := ⟨-4.46, 15.46, -6.59⟩, color := black, range := 2 },
    { position := ⟨-4.45, -15.18, -6.6⟩, color := black, range := 2 },
    { position := ⟨15.33, 13.32, -6.6⟩, color := black, range := 2 },
    { position := ⟨15.04, -13.32, -6.57⟩, color := black, range := 2 },
    { position := ⟨4.35, 15.38, -6.57⟩, color := black, range := 2 },
    { position := ⟨4.54, -15.54, -6.57⟩, color := black, range := 2 },
    { position := ⟨0, 0, 10⟩, color := ⟨0.043, 0.043, 0⟩, range := -13 } ]

/-- The state after `CreateScene`: zero scores, no pending reset, initial
lights, puck at the center `(0, 0, 4)` at rest. -/
def initState : GameState :=
  { lScore := 0, rScore := 0, resetCheck := false, lights := initLights,
    puckPos := ⟨0, 0, 4⟩, puckVel := ⟨0, 0, 0⟩ }

/-- The color pattern the indicator lights should show with `n` left pips
and `m` right pips lit: slots 1–4 mirror the left score, 5–8 the right
score, slots 0 and 9 keep their scene colors. -/
def expectedColors (n m : Nat) : List Vec3Q :=
  (List.range 10).map fun i =>
    if i = 0 then ⟨1, 1, 1⟩
    else if i ≤ 4 then (if i ≤ n then yellow else black)
    else if i ≤ 8 then (if i ≤ m + 4 then yellow else black)
    else ⟨0.043, 0.043, 0⟩

/-! ## Vector lemmas -/

lemma dotV_self_nonneg (a : Vec3) : 0 ≤ dotV a a := by
  have hx := mul_self_nonneg a.x
  have hy := mul_self_nonneg a.y
  have hz := mul_self_nonneg a.z
  simp only [dotV]
  linarith

lemma dotV_self_pos (a : Vec3) (h : a ≠ zeroV) : 0 < dotV a a := by
  rcases lt_or_eq_of_le (dotV_self_nonneg a) with hlt | heq
  · exact hlt
  · exfalso
    apply h
    have hx := mul_self_nonneg a.x
    have hy := mul_self_nonneg a.y
    have hz := mul_self_nonneg a.z
    simp only [dotV] at heq
    have hx0 : a.x = 0 := by nlinarith
    have hy0 : a.y = 0 := by nlinarith
    have hz0 : a.z = 0 := by nlinarith
    ext <;> simp [zeroV, hx0, hy0, hz0]

lemma lengthV_nonneg (a : Vec3) : 0 ≤ lengthV a := Real.sqrt_nonneg _

lemma lengthV_pos (a : Vec3) (h : a ≠ zeroV) : 0 < lengthV a :=
  Real.sqrt_pos.mpr (dotV_self_pos a h)

lemma lengthV_smulV (c : ℝ) (a : Vec3) : lengthV (smulV c a) = |c| * lengthV a := by
  have h : dotV (smulV c a) (smulV c a) = c ^ 2 * dotV a a := by
    simp only [dotV, smulV]
    ring
  rw [lengthV, h, Real.sqrt_mul (sq_nonneg c), Real.sqrt_sq_eq_abs, lengthV]

lemma dotV_normalizeV_self (a : Vec3) (h : a ≠ zeroV) :
    dotV (normalizeV a) (normalizeV a) = 1 := by
  have hd : 0 < dotV a a := dotV_self_pos a h
  have hexp : dotV (normalizeV a) (normalizeV a) = (1 / lengthV a) ^ 2 * dotV a a := by
    simp only [normalizeV, dotV, smulV]
    ring
  rw [hexp, one_div, inv_pow, lengthV, Real.sq_sqrt hd.le]
  exact inv_mul_cancel₀ hd.ne'

lemma dotV_reflectV_self (u n : Vec3) :
    dotV (reflectV u n) (reflectV u n)
      = dotV u u + 4 * dotV n u * dotV n u * (dotV n n - 1) := by
  simp only [reflectV, subV, smulV, dotV]
  ring

lemma normalizeV_z_of_flat (a : Vec3) (h : a.z = 0) : (normalizeV a).z = 0 := by
  simp [normalizeV, smulV, h]

lemma edgeNormalRaw_z (rot : Quat) : (edgeNormalRaw rot).z = 0 := by
  simp [edgeNormalRaw, flattenZ]

lemma flattenZ_z (a : Vec3) : (flattenZ a).z = 0 := rfl

lemma reflectV_z (a b : Vec3) (ha : a.z = 0) (hb : b.z = 0) : (reflectV a b).z = 0 := by
  simp [reflectV, subV, smulV, ha, hb]

lemma flattenZ_of_z_eq_zero (a : Vec3) (h : a.z = 0) : flattenZ a = a := by
  ext <;> simp [flattenZ, h]

lemma flattenZ_reflectV_eq (a b : Vec3) (ha : a.z = 0) (hb : b.z = 0) :
    flattenZ (reflectV a b) = subV a (smulV (2 * dotV a b) b) := by
  ext <;> simp only [flattenZ, reflectV, subV, smulV, dotV, ha, hb] <;> ring

lemma addV_zeroV (a : Vec3) : addV zeroV a = a := by
  ext <;> simp [addV, zeroV]

lemma lengthV_normalizeV (a : Vec3) (h : a ≠ zeroV) : lengthV (normalizeV a) = 1 := by
  have hl : 0 < lengthV a := lengthV_pos a h
  rw [normalizeV, lengthV_smulV, abs_of_pos (one_div_pos.mpr hl)]
  exact one_div_mul_cancel hl.ne'

/-! ## Theorems about the bounce component -/

/-- C1: on a trigger-enter event for a `BounceBehaviour` whose owner is named
"Puck" with a resolved rigid body, writing `v` for the normalized flattened
incoming velocity and `n` for the normalized flattened inward normal, the
pre-scale reflected vector the code computes equals `v - 2*dot(v,n)*n`, and
the impulse applied to the body (its velocity after the reset-then-impulse
pair, also cached in `reflectionVelocity`) equals that reflected vector
scaled by `0.5` times the magnitude of the original flattened velocity. -/
theorem bounce_reflection_law (s : BounceState) (rot : Quat) (body : RigidBody)
    (hbody : s.rigidOBJ = some body) (hname : s.gameObjName = "Puck") :
    flattenZ (reflectV (normalizeV (flattenZ body.velocity)) (normalizeV (edgeNormalRaw rot)))
      = subV (normalizeV (flattenZ body.velocity))
          (smulV (2 * dotV (normalizeV (flattenZ body.velocity))
              (normalizeV (edgeNormalRaw rot)))
            (normalizeV (edgeNormalRaw rot))) ∧
    (onEnteredTrigger s rot).reflectionVelocity
      = smulV ((1 / 2) * lengthV (flattenZ body.velocity))
          (subV (normalizeV (flattenZ body.velocity))
            (smulV (2 * dotV (normalizeV (flattenZ body.velocity))
                (normalizeV (edgeNormalRaw rot)))
              (normalizeV (edgeNormalRaw rot)))) ∧
    (onEnteredTrigger s rot).rigidOBJ
      = some ⟨(onEnteredTrigger s rot).reflectionVelocity⟩ := by
  have hvz : (normalizeV (flattenZ body.velocity)).z = 0 :=
    normalizeV_z_of_flat _ (flattenZ_z _)
  have hnz : (normalizeV (edgeNormalRaw rot)).z = 0 :=
    normalizeV_z_of_flat _ (edgeNormalRaw_z rot)
  have hrefl : flattenZ (reflectV (normalizeV (flattenZ body.velocity))
        (normalizeV (edgeNormalRaw rot)))
      = subV (normalizeV (flattenZ body.velocity))
          (smulV (2 * dotV (normalizeV (flattenZ body.velocity))
              (normalizeV (edgeNormalRaw rot)))
            (normalizeV (edgeNormalRaw rot))) :=
    flattenZ_reflectV_eq _ _ hvz hnz
  refine ⟨hrefl, ?_, ?_⟩
  · rw [onEnteredTrigger, hbody]
    simp only [hname, if_pos]
    rw [hrefl]
    ext <;> simp only [smulV, subV, dotV] <;> ring
  · rw [onEnteredTrigger, hbody]
    simp only [hname, if_pos]
    rw [addV_zeroV]

/-- C2: for a bounce on the puck with a nonzero flattened incoming velocity
and a nonzero flattened inward edge vector (so its normalization is a unit
normal), the post-bounce velocity — the impulse applied after the body's
velocity is reset — has magnitude exactly half the magnitude of the
pre-bounce flattened velocity, whatever the incoming angle. -/
theorem bounce_half_speed (s : BounceState) (rot : Quat) (body : RigidBody)
    (hbody : s.rigidOBJ = some body) (hname : s.gameObjName = "Puck")
    (hv : flattenZ body.velocity ≠ zeroV) (hn : edgeNormalRaw rot ≠ zeroV) :
    (onEnteredTrigger s rot).rigidOBJ
      = some ⟨(onEnteredTrigger s rot).reflectionVelocity⟩ ∧
    lengthV (onEnteredTrigger s rot).reflectionVelocity
      = (1 / 2) * lengthV (flattenZ body.velocity) := by
  have hvz : (normalizeV (flattenZ body.velocity)).z = 0 :=
    normalizeV_z_of_flat _ (flattenZ_z _)
  have hnz : (normalizeV (edgeNormalRaw rot)).z = 0 :=
    normalizeV_z_of_flat _ (edgeNormalRaw_z rot)
  constructor
  · rw [onEnteredTrigger, hbody]
    simp only [hname, if_pos]
    rw [addV_zeroV]
  · rw [onEnteredTrigger, hbody]
    simp only [hname, if_pos]
    rw [flattenZ_of_z_eq_zero _ (reflectV_z _ _ hvz hnz), lengthV_smulV]
    have habs : |lengthV (flattenZ body.velocity) * (1 / 2)|
        = lengthV (flattenZ body.velocity) * (1 / 2) :=
      abs_of_nonneg (mul_nonneg (lengthV_nonneg _) (by norm_num))
    have hunit : lengthV (reflectV (normalizeV (flattenZ body.velocity))
        (normalizeV (edgeNormalRaw rot))) = 1 := by
      rw [lengthV, dotV_reflectV_self, dotV_normalizeV_self _ hn,
        dotV_normalizeV_self _ hv]
      norm_num
    rw [habs, hunit]
    ring

/-- C6: delivering a trigger-enter event to a `BounceBehaviour` whose owning
object is not named "Puck" is a silent no-op: the whole component state —
including the cached `isInCollision`, `reflectionVelocity` and
`repelVelocity` fields and the referenced rigid body — is unchanged. -/
theorem bounce_non_puck_noop (s : BounceState) (rot : Quat)
    (hname : s.gameObjName ≠ "Puck") : onEnteredTrigger s rot = s := by
  rw [onEnteredTrigger]
  cases h : s.rigidOBJ with
  | none => rfl
  | some body => simp only [hname, if_neg, ite_false]

/-! ## Concrete example inputs -/

/-- An example puck body moving with velocity `(1, 2, 3)`. -/
def exBody : RigidBody := ⟨⟨1, 2, 3⟩⟩

/-- A `BounceBehaviour` attached to the puck with a resolved body. -/
def exBounce : BounceState :=
  { gameObjName := "Puck", rigidOBJ := some exBody, isInCollision := false,
    reflectionVelocity := ⟨0, 0, 0⟩, repelVelocity := ⟨0, 0, 0⟩ }

/-- The same component attached to a paddle instead. -/
def exBounceOther : BounceState := { exBounce with gameObjName := "Paddle" }

/-- The identity rotation (an axis-aligned edge). -/
def exRot : Quat := ⟨1, 0, 0, 0⟩

/-- Witness for `bounce_reflection_law` at the example inputs. -/
theorem bounce_reflection_law_witness :
    exBounce.rigidOBJ = some exBody ∧ exBounce.gameObjName = "Puck" ∧
    (flattenZ (reflectV (normalizeV (flattenZ exBody.velocity))
        (normalizeV (edgeNormalRaw exRot)))
      = subV (normalizeV (flattenZ exBody.velocity))
          (smulV (2 * dotV (normalizeV (flattenZ exBody.velocity))
              (normalizeV (edgeNormalRaw exRot)))
            (normalizeV (edgeNormalRaw exRot))) ∧
    (onEnteredTrigger exBounce exRot).reflectionVelocity
      = smulV ((1 / 2) * lengthV (flattenZ exBody.velocity))
          (subV (normalizeV (flattenZ exBody.velocity))
            (smulV (2 * dotV (normalizeV (flattenZ exBody.velocity))
                (normalizeV (edgeNormalRaw exRot)))
              (normalizeV (edgeNormalRaw exRot)))) ∧
    (onEnteredTrigger exBounce exRot).rigidOBJ
      = some ⟨(onEnteredTrigger exBounce exRot).reflectionVelocity⟩) :=
  ⟨rfl, rfl, bounce_reflection_law exBounce exRot exBody rfl rfl⟩

/-- Witness for `bounce_half_speed` at the example inputs. -/
theorem bounce_half_speed_witness :
    flattenZ exBody.velocity ≠ zeroV ∧ edgeNormalRaw exRot ≠ zeroV ∧
    ((onEnteredTrigger exBounce exRot).rigidOBJ
        = some ⟨(onEnteredTrigger exBounce exRot).reflectionVelocity⟩ ∧
      lengthV (onEnteredTrigger exBounce exRot).reflectionVelocity
        = (1 / 2) * lengthV (flattenZ exBody.velocity)) := by
  have hv : flattenZ exBody.velocity ≠ zeroV := by
    simp [flattenZ, zeroV, exBody, Vec3.mk.injEq]
  have hn : edgeNormalRaw exRot ≠ zeroV := by
    norm_num [edgeNormalRaw, vec4MulQuat, quatRotV, quatInv, quatDot, crossV,
      addV, smulV, flattenZ, zeroV, exRot, Vec3.mk.injEq]
  exact ⟨hv, hn, bounce_half_speed exBounce exRot exBody rfl rfl hv hn⟩

/-- Witness for `bounce_non_puck_noop` at the example inputs. -/
theorem bounce_non_puck_noop_witness :
    exBounceOther.gameObjName ≠ "Puck" ∧
    onEnteredTrigger exBounceOther exRot = exBounceOther :=
  ⟨by decide, bounce_non_puck_noop exBounceOther exRot (by decide)⟩

/-! ## Basic lemmas about the score machinery -/

lemma range_ten : List.range 10 = [0, 1, 2, 3, 4, 5, 6, 7, 8, 9] := rfl

lemma checkIsReseting_lScore (s : GameState) : (checkIsReseting s).1.lScore = s.lScore := by
  unfold checkIsReseting
  split <;> rfl

lemma checkIsReseting_rScore (s : GameState) : (checkIsReseting s).1.rScore = s.rScore := by
  unfold checkIsReseting
  split <;> rfl

lemma checkIsReseting_of_clear (s : GameState) (h : s.resetCheck = false) :
    checkIsReseting s = (s, []) := by
  simp [checkIsReseting, h]

lemma scoreCheckReset_of_small (s : GameState) (hl : s.lScore < 4) (hr : s.rScore < 4) :
    scoreCheckReset s = s := by
  have h1 : ¬ (4 : Int) ≤ s.lScore := by omega
  have h2 : ¬ (4 : Int) ≤ s.rScore := by omega
  simp [scoreCheckReset, h1, h2]

lemma scoreCheckReset_of_win (s : GameState) (h : 4 ≤ s.lScore ∨ 4 ≤ s.rScore) :
    (scoreCheckReset s).lScore = 0 ∧ (scoreCheckReset s).rScore = 0 ∧
    (scoreCheckReset s).resetCheck = true := by
  unfold scoreCheckReset
  rcases h with h | h
  · simp only [h, if_pos]
    split <;> simp
  · by_cases hl : (4 : Int) ≤ s.lScore
    · simp only [hl, if_pos]
      split <;> simp
    · simp only [hl, if_neg, ite_false, h, if_pos]
      simp

/-! ## Theorems about goal detection and the win reset -/

/-- C3: in the per-frame goal check, a puck world X of exactly `-17.6`
scores for the right player (teleporting the puck to `(9.5, 0, -1)` and
zeroing its velocity), an X of exactly `+17.6` scores for the left player
(teleporting to `(-9.5, 0, -1)` and zeroing velocity), while X values of
`-17.59` and `+17.59` leave the state completely unchanged. -/
theorem goal_boundary (s : GameState) :
    (s.puckPos.x = -(88 / 5) →
      (goalDetect s).1.rScore = s.rScore + 1 ∧ (goalDetect s).1.lScore = s.lScore ∧
      (goalDetect s).1.puckPos = ⟨19 / 2, 0, -1⟩ ∧ (goalDetect s).1.puckVel = ⟨0, 0, 0⟩) ∧
    (s.puckPos.x = 88 / 5 →
      (goalDetect s).1.lScore = s.lScore + 1 ∧ (goalDetect s).1.rScore = s.rScore ∧
      (goalDetect s).1.puckPos = ⟨-(19 / 2), 0, -1⟩ ∧ (goalDetect s).1.puckVel = ⟨0, 0, 0⟩) ∧
    ((s.puckPos.x = -(1759 / 100) ∨ s.puckPos.x = 1759 / 100) → (goalDetect s).1 = s) := by
  refine ⟨fun h => ?_, fun h => ?_, fun h => ?_⟩
  · have h1 : s.puckPos.x ≤ -(88 / 5 : ℚ) := le_of_eq h
    have h2 : ¬ ((88 / 5 : ℚ) ≤ s.puckPos.x) := by rw [h]; norm_num
    simp [goalDetect, scoreCheck, h1, h2]
  · have h1 : ¬ (s.puckPos.x ≤ -(88 / 5 : ℚ)) := by rw [h]; norm_num
    have h2 : (88 / 5 : ℚ) ≤ s.puckPos.x := ge_of_eq h
    simp [goalDetect, scoreCheck, h1, h2]
  · rcases h with h | h <;>
    · have h1 : ¬ (s.puckPos.x ≤ -(88 / 5 : ℚ)) := by rw [h]; norm_num
      have h2 : ¬ ((88 / 5 : ℚ) ≤ s.puckPos.x) := by rw [h]; norm_num
      simp [goalDetect, h1, h2]

/-- A state whose puck sits exactly on the right boundary `x = -17.6`. -/
def sGoalR : GameState := { initState with puckPos := ⟨-(88 / 5), 0, 0⟩ }

/-- A state whose puck sits exactly on the left boundary `x = +17.6`. -/
def sGoalL : GameState := { initState with puckPos := ⟨88 / 5, 0, 0⟩ }

/-- A state whose puck sits just inside the boundary, at `x = 17.59`. -/
def sNoGoal : GameState := { initState with puckPos := ⟨1759 / 100, 0, 0⟩ }

/-- Witness for `goal_boundary` at the three boundary states. -/
theorem goal_boundary_witness :
    sGoalR.puckPos.x = -(88 / 5) ∧ sGoalL.puckPos.x = 88 / 5 ∧
    (sNoGoal.puckPos.x = -(1759 / 100) ∨ sNoGoal.puckPos.x = 1759 / 100) ∧
    ((goalDetect sGoalR).1.rScore = sGoalR.rScore + 1 ∧
      (goalDetect sGoalR).1.lScore = sGoalR.lScore ∧
      (goalDetect sGoalR).1.puckPos = ⟨19 / 2, 0, -1⟩ ∧
      (goalDetect sGoalR).1.puckVel = ⟨0, 0, 0⟩) ∧
    ((goalDetect sGoalL).1.lScore = sGoalL.lScore + 1 ∧
      (goalDetect sGoalL).1.rScore = sGoalL.rScore ∧
      (goalDetect sGoalL).1.puckPos = ⟨-(19 / 2), 0, -1⟩ ∧
      (goalDetect sGoalL).1.puckVel = ⟨0, 0, 0⟩) ∧
    (goalDetect sNoGoal).1 = sNoGoal :=
  ⟨rfl, rfl, Or.inr rfl, (goal_boundary sGoalR).1 rfl, (goal_boundary sGoalL).2.1 rfl,
    (goal_boundary sNoGoal).2.2 (Or.inr rfl)⟩

/-- C8: invoking `checkIsReseting` when the pending-reset flag is false is a
no-op: the returned state (positions, lights, flag, everything) is the input
state, and no light write happens. -/
theorem reset_flag_clear_noop (s : GameState) (h : s.resetCheck = false) :
    checkIsReseting s = (s, []) :=
  checkIsReseting_of_clear s h

/-- Witness for `reset_flag_clear_noop` at the initial state. -/
theorem reset_flag_clear_noop_witness :
    initState.resetCheck = false ∧ checkIsReseting initState = (initState, []) :=
  ⟨rfl, reset_flag_clear_noop initState rfl⟩

/-- C10: the win-reset consumption routine never touches the puck's
velocity — it teleports the puck to the center when the flag is set but
leaves `puckVel` as it was — unlike goal detection, which zeroes the
velocity whenever it fires. -/
theorem reset_keeps_velocity (s : GameState) :
    (checkIsReseting s).1.puckVel = s.puckVel ∧
    (s.resetCheck = true → (checkIsReseting s).1.puckPos = ⟨0, 0, 4⟩) ∧
    (s.puckPos.x ≤ -(88 / 5) ∨ (88 / 5 : ℚ) ≤ s.puckPos.x →
      (goalDetect s).1.puckVel = ⟨0, 0, 0⟩) := by
  refine ⟨?_, fun h => ?_, fun h => ?_⟩
  · unfold checkIsReseting
    split <;> rfl
  · simp [checkIsReseting, h]
  · unfold goalDetect
    by_cases h2 : (88 / 5 : ℚ) ≤ s.puckPos.x
    · simp [h2]
    · have h1 : s.puckPos.x ≤ -(88 / 5 : ℚ) := by
        rcases h with h | h
        · exact h
        · exact absurd h h2
      simp [h1, h2, scoreCheck]

/-- A state with a pending reset and the puck on the left boundary. -/
def sResetGoal : GameState :=
  { initState with resetCheck := true, puckPos := ⟨88 / 5, 0, 0⟩ }

/-- Witness for `reset_keeps_velocity` at a pending-reset boundary state. -/
theorem reset_keeps_velocity_witness :
    sResetGoal.resetCheck = true ∧
    (sResetGoal.puckPos.x ≤ -(88 / 5) ∨ (88 / 5 : ℚ) ≤ sResetGoal.puckPos.x) ∧
    (checkIsReseting sResetGoal).1.puckVel = sResetGoal.puckVel ∧
    (checkIsReseting sResetGoal).1.puckPos = ⟨0, 0, 4⟩ ∧
    (goalDetect sResetGoal).1.puckVel = ⟨0, 0, 0⟩ :=
  ⟨rfl, Or.inr le_rfl, (reset_keeps_velocity sResetGoal).1,
    (reset_keeps_velocity sResetGoal).2.1 rfl,
    (reset_keeps_velocity sResetGoal).2.2 (Or.inr le_rfl)⟩

/-! ## The score counters across frames -/

/-- An observed puck position on the left-goal boundary. -/
def pLeft : Vec3Q := ⟨88 / 5, 0, 0⟩

/-- An observed puck position on the right-goal boundary. -/
def pRight : Vec3Q := ⟨-(88 / 5), 0, 0⟩

/-- C4 counterexample: starting from the initial state, three frames with
left goals leave `lScore = 3`; the fourth left-goal frame brings the counter
to 4, yet at the end of that same frame the counters are *not* reset and the
pending-reset flag is still false — the reset only happens in
`scoreCheckReset` at the start of the following frame.  This refutes the
claim that the counters reset atomically in the frame in which a counter
reached 4. -/
theorem score_same_frame_reset_cex :
    (runFrames initState [pLeft, pLeft, pLeft]).lScore = 3 ∧
    (frameStep pLeft (runFrames initState [pLeft, pLeft, pLeft])).1.lScore = 4 ∧
    (frameStep pLeft (runFrames initState [pLeft, pLeft, pLeft])).1.resetCheck = false := by
  refine ⟨?_, ?_, ?_⟩ <;>
  · simp [runFrames, frameStep, checkIsReseting, scoreCheckReset, goalDetect, scoreCheck,
      initState, pLeft, initLights, lightReset, setLightColor, setLightColorN, setLightPosN,
      List.range']
    norm_num

lemma goalDetect_score_mono (s : GameState) :
    s.lScore ≤ (goalDetect s).1.lScore ∧ s.rScore ≤ (goalDetect s).1.rScore := by
  by_cases h1 : s.puckPos.x ≤ -(88 / 5 : ℚ) <;>
    by_cases h2 : (88 / 5 : ℚ) ≤ s.puckPos.x <;>
      simp [goalDetect, scoreCheck, h1, h2]

/-- C4 amended: in any frame entered with both counters below 4, the frame
leaves each counter no smaller (non-decreasing up to 4); and when a frame
ends with a counter at 4 (or more), the *next* frame's `scoreCheckReset` —
which runs before that frame's goal detection — zeroes both counters and
raises the pending-reset flag.  The reset thus happens at the start of the
following frame, not in the frame in which the counter reached 4. -/
theorem score_monotone_reset_next_frame :
    (∀ (s : GameState) (p : Vec3Q), s.lScore < 4 → s.rScore < 4 →
      s.lScore ≤ (frameStep p s).1.lScore ∧ s.rScore ≤ (frameStep p s).1.rScore) ∧
    (∀ s : GameState, 4 ≤ s.lScore ∨ 4 ≤ s.rScore →
      (scoreCheckReset (checkIsReseting s).1).lScore = 0 ∧
      (scoreCheckReset (checkIsReseting s).1).rScore = 0 ∧
      (scoreCheckReset (checkIsReseting s).1).resetCheck = true) := by
  constructor
  · intro s p hl hr
    have h1 := checkIsReseting_lScore s
    have h2 := checkIsReseting_rScore s
    have hsmall := scoreCheckReset_of_small (checkIsReseting s).1
      (by omega) (by omega)
    simp only [frameStep, hsmall]
    have hm := goalDetect_score_mono { (checkIsReseting s).1 with puckPos := p }
    simp only [] at hm
    constructor
    · calc s.lScore = (checkIsReseting s).1.lScore := h1.symm
        _ ≤ _ := hm.1
    · calc s.rScore = (checkIsReseting s).1.rScore := h2.symm
        _ ≤ _ := hm.2
  · intro s h
    apply scoreCheckReset_of_win
    rcases h with h | h
    · exact Or.inl (by rw [checkIsReseting_lScore]; exact h)
    · exact Or.inr (by rw [checkIsReseting_rScore]; exact h)

/-- A state whose left counter has just reached 4. -/
def sFourL : GameState := { initState with lScore := 4 }

/-- Witness for `score_monotone_reset_next_frame` at concrete states. -/
theorem score_monotone_reset_next_frame_witness :
    initState.lScore < 4 ∧ initState.rScore < 4 ∧
    (initState.lScore ≤ (frameStep pLeft initState).1.lScore ∧
      initState.rScore ≤ (frameStep pLeft initState).1.rScore) ∧
    (4 ≤ sFourL.lScore ∨ 4 ≤ sFourL.rScore) ∧
    ((scoreCheckReset (checkIsReseting sFourL).1).lScore = 0 ∧
      (scoreCheckReset (checkIsReseting sFourL).1).rScore = 0 ∧
      (scoreCheckReset (checkIsReseting sFourL).1).resetCheck = true) :=
  ⟨by norm_num [initState], by norm_num [initState],
    score_monotone_reset_next_frame.1 initState pLeft (by norm_num [initState])
      (by norm_num [initState]),
    Or.inl (by norm_num [sFourL, initState]),
    score_monotone_reset_next_frame.2 sFourL
      (Or.inl (by norm_num [sFourL, initState]))⟩

/-! ## Lemmas about light writes -/

lemma setLightColorN_length (ls : List Light) (n : Nat) (c : Vec3Q) :
    (setLightColorN ls n c).length = ls.length := by
  induction ls generalizing n with
  | nil => rfl
  | cons l ls ih => cases n <;> simp [setLightColorN, ih]

lemma setLightColor_length (ls : List Light) (i : Int) (c : Vec3Q) :
    (setLightColor ls i c).length = ls.length := by
  unfold setLightColor
  split
  · exact setLightColorN_length ls _ c
  · rfl

lemma setLightPosN_length (ls : List Light) (n : Nat) (p : Vec3Q) :
    (setLightPosN ls n p).length = ls.length := by
  induction ls generalizing n with
  | nil => rfl
  | cons l ls ih => cases n <;> simp [setLightPosN, ih]

lemma get_map_color_setLightColorN (ls : List Light) (n : Nat) (c : Vec3Q) (i : Nat)
    (hi : i < ls.length) :
    ((setLightColorN ls n c).get? i).map Light.color
      = if i = n then some c else (ls.get? i).map Light.color := by
  induction ls generalizing n i with
  | nil => simp at hi
  | cons l ls ih =>
    cases n with
    | zero =>
      cases i with
      | zero => simp [setLightColorN]
      | succ i => simp [setLightColorN]
    | succ n =>
      cases i with
      | zero => simp [setLightColorN]
      | succ i =>
        have hi2 : i < ls.length := by simpa using hi
        simpa [setLightColorN] using ih n i hi2

lemma foldl_setBlack_get (js : List Nat) : ∀ (ls : List Light) (i : Nat), i < ls.length →
    ((js.foldl (fun acc j => setLightColor acc (Int.ofNat j) black) ls).get? i).map Light.color
      = if i ∈ js then some black else (ls.get? i).map Light.color := by
  induction js with
  | nil => intro ls i hi; simp
  | cons j js ih =>
    intro ls i hi
    rw [List.foldl_cons]
    have hlen : i < (setLightColor ls (Int.ofNat j) black).length := by
      rw [setLightColor_length]; exact hi
    rw [ih _ i hlen]
    have hset : ((setLightColor ls (Int.ofNat j) black).get? i).map Light.color
        = if i = j then some black else (ls.get? i).map Light.color := by
      unfold setLightColor
      rw [if_pos (show (0 : Int) ≤ Int.ofNat j from Int.natCast_nonneg j)]
      simpa using get_map_color_setLightColorN ls j black i hi
    by_cases hmem : i ∈ js
    · simp [hmem]
    · rw [if_neg hmem, hset]
      by_cases hij : i = j <;> simp [hmem, hij, List.mem_cons]

/-- C7: when the pending-reset flag is raised at the start of a frame,
`checkIsReseting` teleports the puck to the center `(0, 0, 4)`, turns every
indicator light 1–8 back to the unlit black color, and lowers the flag, so
a second invocation would be a no-op (the reset is consumed exactly once). -/
theorem reset_consumed_once (s : GameState) (hlen : s.lights.length = 10)
    (h : s.resetCheck = true) :
    (checkIsReseting s).1.puckPos = ⟨0, 0, 4⟩ ∧
    (checkIsReseting s).1.resetCheck = false ∧
    ∀ i : Nat, 1 ≤ i → i ≤ 8 →
      ((checkIsReseting s).1.lights.get? i).map Light.color = some black := by
  refine ⟨by simp [checkIsReseting, h], by simp [checkIsReseting, h], fun i h1 h8 => ?_⟩
  simp only [checkIsReseting, h, if_pos]
  unfold lightReset
  have hmem : i ∈ List.range' 1 8 := by
    have e : List.range' 1 8 = [1, 2, 3, 4, 5, 6, 7, 8] := rfl
    rw [e]
    interval_cases i <;> simp
  rw [foldl_setBlack_get _ s.lights i (by omega)]
  simp [hmem]

/-- The initial state with a pending reset raised. -/
def sReady : GameState := { initState with resetCheck := true }

/-- Witness for `reset_consumed_once` at a pending-reset state, sampling
indicator light 3. -/
theorem reset_consumed_once_witness :
    sReady.lights.length = 10 ∧ sReady.resetCheck = true ∧
    (checkIsReseting sReady).1.puckPos = ⟨0, 0, 4⟩ ∧
    (checkIsReseting sReady).1.resetCheck = false ∧
    ((checkIsReseting sReady).1.lights.get? 3).map Light.color = some black :=
  ⟨rfl, rfl, (reset_consumed_once sReady rfl rfl).1,
    (reset_consumed_once sReady rfl rfl).2.1,
    (reset_consumed_once sReady rfl rfl).2.2 3 (by norm_num) (by norm_num)⟩

/-! ## The lights mirror the scores -/

lemma map_color_setLightColorN (ls : List Light) (n : Nat) (c : Vec3Q) :
    (setLightColorN ls n c).map Light.color = (ls.map Light.color).set n c := by
  induction ls generalizing n with
  | nil => simp [setLightColorN]
  | cons l ls ih => cases n <;> simp [setLightColorN, ih]

lemma map_color_setLightPosN (ls : List Light) (n : Nat) (p : Vec3Q) :
    (setLightPosN ls n p).map Light.color = ls.map Light.color := by
  induction ls generalizing n with
  | nil => rfl
  | cons l ls ih => cases n <;> simp [setLightPosN, ih]

lemma setLightColor_ofNat (ls : List Light) (k : Nat) (c : Vec3Q) :
    setLightColor ls (k : Int) c = setLightColorN ls k c := by
  unfold setLightColor
  rw [if_pos (show (0 : Int) ≤ (k : Int) from Int.natCast_nonneg k)]
  simp

lemma expectedColors_set_left (n m : Nat) (h : n < 4) :
    (expectedColors n m).set (n + 1) yellow = expectedColors (n + 1) m := by
  interval_cases n <;> simp [expectedColors, range_ten, List.set]

lemma expectedColors_set_right (n m : Nat) (h : m < 4) :
    (expectedColors n m).set (m + 5) yellow = expectedColors n (m + 1) := by
  interval_cases m <;> simp [expectedColors, range_ten, List.set]

lemma goalDetect_left (t : GameState) (hL : (88 / 5 : ℚ) ≤ t.puckPos.x)
    (hR : ¬ t.puckPos.x ≤ -(88 / 5 : ℚ)) :
    goalDetect t
      = ({ t with lScore := t.lScore + 1,
                  lights := setLightColor t.lights (t.lScore + 1) yellow,
                  puckPos := ⟨-(19 / 2), 0, -1⟩, puckVel := ⟨0, 0, 0⟩ },
         [t.lScore + 1]) := by
  simp [goalDetect, scoreCheck, hL, hR]

lemma goalDetect_right (t : GameState) (hL : ¬ (88 / 5 : ℚ) ≤ t.puckPos.x)
    (hR : t.puckPos.x ≤ -(88 / 5 : ℚ)) :
    goalDetect t
      = ({ t with rScore := t.rScore + 1,
                  lights := setLightColor t.lights (t.rScore + 1 + 4) yellow,
                  puckPos := ⟨19 / 2, 0, -1⟩, puckVel := ⟨0, 0, 0⟩ },
         [t.rScore + 1 + 4]) := by
  simp [goalDetect, scoreCheck, hL, hR]

lemma goalDetect_none (t : GameState) (hL : ¬ (88 / 5 : ℚ) ≤ t.puckPos.x)
    (hR : ¬ t.puckPos.x ≤ -(88 / 5 : ℚ)) :
    goalDetect t = (t, []) := by
  simp [goalDetect, hL, hR]

lemma frameStep_fst (p : Vec3Q) (s : GameState) :
    (frameStep p s).1
      = { (goalDetect { scoreCheckReset (checkIsReseting s).1 with puckPos := p }).1 with
          lights := setLightPosN
            (goalDetect { scoreCheckReset (checkIsReseting s).1 with puckPos := p }).1.lights 9
            ⟨(goalDetect { scoreCheckReset (checkIsReseting s).1 with puckPos := p }).1.puckPos.x,
             (goalDetect { scoreCheckReset (checkIsReseting s).1 with puckPos := p }).1.puckPos.y,
             (goalDetect { scoreCheckReset (checkIsReseting s).1 with puckPos := p }).1.puckPos.z
               + 3⟩ } := rfl

/-- The per-frame invariant tying the counters to the lit pips: scores `n`
and `m`, no pending reset, and the light colors showing exactly `n` left
pips and `m` right pips. -/
def ScoreInv (s : GameState) (n m : Nat) : Prop :=
  s.lScore = n ∧ s.rScore = m ∧ s.resetCheck = false ∧
  s.lights.map Light.color = expectedColors n m

lemma frameStep_inv (s : GameState) (p : Vec3Q) (n m : Nat) (hn : n < 4) (hm : m < 4)
    (h : ScoreInv s n m) :
    ScoreInv (frameStep p s).1 (n + if isLeftGoal p then 1 else 0)
      (m + if isRightGoal p then 1 else 0) := by
  obtain ⟨h1, h2, h3, h4⟩ := h
  have hc : checkIsReseting s = (s, []) := checkIsReseting_of_clear s h3
  have hs : scoreCheckReset s = s := scoreCheckReset_of_small s (by omega) (by omega)
  have hframe := frameStep_fst p s
  rw [hc] at hframe
  simp only [hs] at hframe
  by_cases hL : (88 / 5 : ℚ) ≤ p.x
  · by_cases hR : p.x ≤ -(88 / 5 : ℚ)
    · exfalso; linarith
    · -- left goal only
      have hLb : isLeftGoal p = true := by simp [isLeftGoal, hL]
      have hRb : isRightGoal p = false := by simp [isRightGoal, hR]
      rw [goalDetect_left { s with puckPos := p } hL hR] at hframe
      refine ⟨?_, ?_, ?_, ?_⟩ <;> rw [hframe] <;> simp [hLb, hRb, h1, h2, h3]
      rw [map_color_setLightPosN]
      have e : ((n : Int) + 1) = ((n + 1 : Nat) : Int) := by push_cast; ring
      rw [e, setLightColor_ofNat, map_color_setLightColorN, h4,
        expectedColors_set_left n m hn]
  · by_cases hR : p.x ≤ -(88 / 5 : ℚ)
    · -- right goal only
      have hLb : isLeftGoal p = false := by simp [isLeftGoal, hL]
      have hRb : isRightGoal p = true := by simp [isRightGoal, hR]
      rw [goalDetect_right { s with puckPos := p } hL hR] at hframe
      refine ⟨?_, ?_, ?_, ?_⟩ <;> rw [hframe] <;> simp [hLb, hRb, h1, h2, h3]
      rw [map_color_setLightPosN]
      have e : ((m : Int) + 1 + 4) = ((m + 5 : Nat) : Int) := by push_cast; ring
      rw [e, setLightColor_ofNat, map_color_setLightColorN, h4,
        expectedColors_set_right n m hm]
    · -- no goal
      have hLb : isLeftGoal p = false := by simp [isLeftGoal, hL]
      have hRb : isRightGoal p = false := by simp [isRightGoal, hR]
      rw [goalDetect_none { s with puckPos := p } hL hR] at hframe
      refine ⟨?_, ?_, ?_, ?_⟩ <;> rw [hframe] <;> simp [hLb, hRb, h1, h2, h3]
      rw [map_color_setLightPosN, h4]

lemma countLeft_cons (p : Vec3Q) (ps : List Vec3Q) :
    countLeft (p :: ps) = (if isLeftGoal p then 1 else 0) + countLeft ps := by
  simp only [countLeft, List.filter_cons]
  cases h : isLeftGoal p <;> simp [h] <;> omega

lemma countRight_cons (p : Vec3Q) (ps : List Vec3Q) :
    countRight (p :: ps) = (if isRightGoal p then 1 else 0) + countRight ps := by
  simp only [countRight, List.filter_cons]
  cases h : isRightGoal p <;> simp [h] <;> omega

lemma runFrames_cons (s : GameState) (p : Vec3Q) (ps : List Vec3Q) :
    runFrames s (p :: ps) = runFrames (frameStep p s).1 ps := rfl

lemma runFrames_inv (ps : List Vec3Q) : ∀ (s : GameState) (n m : Nat),
    ScoreInv s n m → n + countLeft ps ≤ 3 → m + countRight ps ≤ 3 →
    ScoreInv (runFrames s ps) (n + countLeft ps) (m + countRight ps) := by
  induction ps with
  | nil =>
    intro s n m h _ _
    simpa [runFrames, countLeft, countRight] using h
  | cons p ps ih =>
    intro s n m h hn hm
    rw [countLeft_cons] at hn
    rw [countRight_cons] at hm
    have hstep := frameStep_inv s p n m (by omega) (by omega) h
    have hrec := ih (frameStep p s).1 _ _ hstep (by omega) (by omega)
    rw [runFrames_cons]
    have e1 : n + countLeft (p :: ps)
        = (n + if isLeftGoal p then 1 else 0) + countLeft ps := by
      rw [countLeft_cons]; omega
    have e2 : m + countRight (p :: ps)
        = (m + if isRightGoal p then 1 else 0) + countRight ps := by
      rw [countRight_cons]; omega
    rw [e1, e2]
    exact hrec

lemma initState_inv : ScoreInv initState 0 0 := by
  refine ⟨rfl, rfl, rfl, ?_⟩
  norm_num [initState, initLights, expectedColors, range_ten, black, yellow, Vec3Q.mk.injEq]

/-- C5: after any sequence of frames containing `N < 4` left goals and
`M < 4` right goals starting from the initial scene, indicator lights 1–4
show exactly the first `N` pips lit yellow (the rest black), lights 5–8 show
exactly the first `M` right pips lit yellow, and the colors of lights 0 and
9 are untouched by scoring. -/
theorem lights_mirror_scores (ps : List Vec3Q)
    (hN : countLeft ps < 4) (hM : countRight ps < 4) :
    (∀ i : Nat, 1 ≤ i → i ≤ 4 →
      ((runFrames initState ps).lights.get? i).map Light.color
        = some (if i ≤ countLeft ps then yellow else black)) ∧
    (∀ i : Nat, 5 ≤ i → i ≤ 8 →
      ((runFrames initState ps).lights.get? i).map Light.color
        = some (if i ≤ countRight ps + 4 then yellow else black)) ∧
    ((runFrames initState ps).lights.get? 0).map Light.color
      = (initState.lights.get? 0).map Light.color ∧
    ((runFrames initState ps).lights.get? 9).map Light.color
      = (initState.lights.get? 9).map Light.color := by
  have hinv := runFrames_inv ps initState 0 0 initState_inv (by omega) (by omega)
  have hmap := hinv.2.2.2
  simp only [Nat.zero_add] at hmap
  refine ⟨fun i h1 h4 => ?_, fun i h5 h8 => ?_, ?_, ?_⟩
  · rw [← List.get?_map, hmap]
    interval_cases i <;> simp [expectedColors, range_ten]
  · rw [← List.get?_map, hmap]
    interval_cases i <;> simp [expectedColors, range_ten]
  · rw [← List.get?_map, hmap]
    simp [expectedColors, range_ten, initState, initLights]
  · rw [← List.get?_map, hmap]
    simp [expectedColors, range_ten, initState, initLights]

/-- Witness for `lights_mirror_scores` on a two-frame trace with one left
and one right goal, sampling lights 1 and 5. -/
theorem lights_mirror_scores_witness :
    countLeft [pLeft, pRight] < 4 ∧ countRight [pLeft, pRight] < 4 ∧
    ((runFrames initState [pLeft, pRight]).lights.get? 1).map Light.color
      = some (if 1 ≤ countLeft [pLeft, pRight] then yellow else black) ∧
    ((runFrames initState [pLeft, pRight]).lights.get? 5).map Light.color
      = some (if 5 ≤ countRight [pLeft, pRight] + 4 then yellow else black) ∧
    ((runFrames initState [pLeft, pRight]).lights.get? 0).map Light.color
      = (initState.lights.get? 0).map Light.color := by
  have hN : countLeft [pLeft, pRight] < 4 := by
    norm_num [countLeft, isLeftGoal, pLeft, pRight, List.filter]
  have hM : countRight [pLeft, pRight] < 4 := by
    norm_num [countRight, isRightGoal, pLeft, pRight, List.filter]
  exact ⟨hN, hM,
    (lights_mirror_scores [pLeft, pRight] hN hM).1 1 (by norm_num) (by norm_num),
    (lights_mirror_scores [pLeft, pRight] hN hM).2.1 5 (by norm_num) (by norm_num),
    (lights_mirror_scores [pLeft, pRight] hN hM).2.2.1⟩

/-! ## All light writes stay inside the 10-element array -/

/-- Bounds invariant of reachable states: both counters lie in `[0, 4]`
(a counter exceeds 3 only transiently, until the next frame's
`scoreCheckReset`), and the lights array keeps its 10 scene slots. -/
def BoundsInv (s : GameState) : Prop :=
  0 ≤ s.lScore ∧ s.lScore ≤ 4 ∧ 0 ≤ s.rScore ∧ s.rScore ≤ 4 ∧ s.lights.length = 10

lemma foldl_setLightColor_length (js : List Nat) (ls : List Light) :
    (js.foldl (fun acc j => setLightColor acc (Int.ofNat j) black) ls).length
      = ls.length := by
  induction js generalizing ls with
  | nil => rfl
  | cons j js ih => rw [List.foldl_cons, ih, setLightColor_length]

lemma checkIsReseting_lights_length (s : GameState) :
    (checkIsReseting s).1.lights.length = s.lights.length := by
  unfold checkIsReseting
  split
  · exact foldl_setLightColor_length _ s.lights
  · rfl

lemma scoreCheckReset_lights (s : GameState) :
    (scoreCheckReset s).lights = s.lights := by
  simp only [scoreCheckReset]
  split <;> split <;> rfl

lemma scoreCheckReset_le_three (s : GameState)
    (hl0 : 0 ≤ s.lScore) (hl4 : s.lScore ≤ 4) (hr0 : 0 ≤ s.rScore) (hr4 : s.rScore ≤ 4) :
    0 ≤ (scoreCheckReset s).lScore ∧ (scoreCheckReset s).lScore ≤ 3 ∧
    0 ≤ (scoreCheckReset s).rScore ∧ (scoreCheckReset s).rScore ≤ 3 := by
  simp only [scoreCheckReset]
  split <;> split <;> (try simp) <;> omega

lemma goalDetect_fst_fields (t : GameState) :
    ((goalDetect t).1.lScore = t.lScore ∨ (goalDetect t).1.lScore = t.lScore + 1) ∧
    ((goalDetect t).1.rScore = t.rScore ∨ (goalDetect t).1.rScore = t.rScore + 1) ∧
    (goalDetect t).1.lights.length = t.lights.length := by
  by_cases hL : (88 / 5 : ℚ) ≤ t.puckPos.x
  · by_cases hR : t.puckPos.x ≤ -(88 / 5 : ℚ)
    · exfalso; linarith
    · rw [goalDetect_left t hL hR]
      simp [setLightColor_length]
  · by_cases hR : t.puckPos.x ≤ -(88 / 5 : ℚ)
    · rw [goalDetect_right t hL hR]
      simp [setLightColor_length]
    · rw [goalDetect_none t hL hR]
      simp

lemma frameStep_bounds (p : Vec3Q) (s : GameState) (h : BoundsInv s) :
    BoundsInv (frameStep p s).1 := by
  obtain ⟨hl0, hl4, hr0, hr4, hlen⟩ := h
  rw [BoundsInv, frameStep_fst]
  have hcl := checkIsReseting_lScore s
  have hcr := checkIsReseting_rScore s
  have hclen := checkIsReseting_lights_length s
  have hsc := scoreCheckReset_le_three (checkIsReseting s).1
    (by omega) (by omega) (by omega) (by omega)
  have hg := goalDetect_fst_fields
    { scoreCheckReset (checkIsReseting s).1 with puckPos := p }
  simp only [scoreCheckReset_lights] at hg ⊢
  simp only [setLightPosN_length]
  obtain ⟨hg1, hg2, hg3⟩ := hg
  refine ⟨?_, ?_, ?_, ?_, ?_⟩
  · rcases hg1 with h | h <;> simp [h] <;> omega
  · rcases hg1 with h | h <;> simp [h] <;> omega
  · rcases hg2 with h | h <;> simp [h] <;> omega
  · rcases hg2 with h | h <;> simp [h] <;> omega
  · rw [hg3]
    simpa using (hclen.trans hlen)

lemma initState_bounds : BoundsInv initState := by
  refine ⟨by norm_num [initState], by norm_num [initState],
    by norm_num [initState], by norm_num [initState], rfl⟩

lemma runFrames_bounds (ps : List Vec3Q) : BoundsInv (runFrames initState ps) := by
  induction ps using List.reverseRecOn with
  | nil => exact initState_bounds
  | append_singleton ps p ih =>
    have e : runFrames initState (ps ++ [p]) = (frameStep p (runFrames initState ps)).1 := by
      simp [runFrames]
    rw [e]
    exact frameStep_bounds p _ ih

lemma checkIsReseting_writes (s : GameState) :
    ∀ i ∈ (checkIsReseting s).2, 1 ≤ i ∧ i ≤ 8 := by
  intro i hi
  unfold checkIsReseting at hi
  rcases hr : s.resetCheck with hfalse | htrue <;> rw [hr] at hi <;> simp at hi
  rcases hi with ⟨j, hj, rfl⟩
  omega

lemma goalDetect_writes (t : GameState)
    (hl0 : 0 ≤ t.lScore) (hl3 : t.lScore ≤ 3) (hr0 : 0 ≤ t.rScore) (hr3 : t.rScore ≤ 3) :
    ∀ i ∈ (goalDetect t).2, 1 ≤ i ∧ i ≤ 8 := by
  intro i hi
  by_cases hL : (88 / 5 : ℚ) ≤ t.puckPos.x
  · by_cases hR : t.puckPos.x ≤ -(88 / 5 : ℚ)
    · exfalso; linarith
    · rw [goalDetect_left t hL hR] at hi
      simp at hi
      omega
  · by_cases hR : t.puckPos.x ≤ -(88 / 5 : ℚ)
    · rw [goalDetect_right t hL hR] at hi
      simp at hi
      omega
    · rw [goalDetect_none t hL hR] at hi
      simp at hi

lemma frameStep_snd (p : Vec3Q) (s : GameState) :
    (frameStep p s).2
      = (checkIsReseting s).2
        ++ (goalDetect { scoreCheckReset (checkIsReseting s).1 with puckPos := p }).2 := rfl

/-- C9: in every state reachable by running frames from the initial scene,
all indices the frame's light-color writes use — the pip written by
`scoreCheck` during goal detection and the eight slots cleared by
`lightReset` — lie in `[1, 8]`, inside the bounds of the 10-element
`scene->Lights` array. -/
theorem light_writes_in_bounds (ps : List Vec3Q) (p : Vec3Q) :
    (runFrames initState ps).lights.length = 10 ∧
    ∀ i ∈ (frameStep p (runFrames initState ps)).2,
      (1 ≤ i ∧ i ≤ 8) ∧ 0 ≤ i ∧ i < 10 := by
  obtain ⟨hl0, hl4, hr0, hr4, hlen⟩ := runFrames_bounds ps
  refine ⟨hlen, fun i hi => ?_⟩
  rw [frameStep_snd, List.mem_append] at hi
  have hb : 1 ≤ i ∧ i ≤ 8 := by
    rcases hi with hi | hi
    · exact checkIsReseting_writes _ i hi
    · have hcl := checkIsReseting_lScore (runFrames initState ps)
      have hcr := checkIsReseting_rScore (runFrames initState ps)
      have hsc := scoreCheckReset_le_three (checkIsReseting (runFrames initState ps)).1
        (by omega) (by omega) (by omega) (by omega)
      exact goalDetect_writes _ (by simp; omega) (by simp; omega)
        (by simp; omega) (by simp; omega) i hi
  exact ⟨hb, by omega, by omega⟩

/-- Witness for `light_writes_in_bounds`: the first frame after the empty
trace, with a left goal, writes exactly light index 1. -/
theorem light_writes_in_bounds_witness :
    (1 : Int) ∈ (frameStep pLeft (runFrames initState [])).2 ∧
    ((1 ≤ (1 : Int) ∧ (1 : Int) ≤ 8) ∧ 0 ≤ (1 : Int) ∧ (1 : Int) < 10) := by
  have hmem : (1 : Int) ∈ (frameStep pLeft (runFrames initState [])).2 := by
    norm_num [runFrames, frameStep, checkIsReseting, scoreCheckReset, goalDetect,
      scoreCheck, initState, pLeft]
  exact ⟨hmem, (light_writes_in_bounds [] pLeft).2 1 hmem⟩

end AirHockey
